import Mathlib

/-!
Verification development for the no-gui-image-automation repository
(script3_test_applications.py and script3_test_applications_cleanedup.py).

The repository's per-application test driver is shallowly embedded here.
External, racy OS state (the process table, the window set, pause/cancel
flags, exceptions raised by OS calls) is supplied by explicit "world"
records; every function of the scripts that the claims touch is translated
directly from its Python source.  Machine behaviour that the scripts only
observe (which processes survive a terminate call, which windows are
accessible, access-denied outcomes) is world data, not logic.
-/

namespace AppTest

/-- Model of Python `str.lower()` (character-wise lowercasing). -/
def lowerStr (s : String) : String := ⟨s.data.map Char.toLower⟩

/-- Case-insensitive string equality, modelling Python `a.lower() == b.lower()`. -/
def lowerEq (a b : String) : Bool := lowerStr a == lowerStr b

/-- Infix (substring) test on character lists. -/
def listInfix (needle : List Char) : List Char → Bool
  | [] => needle.isEmpty
  | c :: cs => needle.isPrefixOf (c :: cs) || listInfix needle cs

/-- Case-insensitive substring test, modelling
`re.search(re.escape(app_name), window_title, re.IGNORECASE)`. -/
def containsCI (needle hay : String) : Bool :=
  listInfix (lowerStr needle).data (lowerStr hay).data

/-- Characters after the last path separator. -/
def basenameAux : List Char → List Char → List Char
  | [], acc => acc.reverse
  | c :: cs, acc =>
    if c == '/' || c == '\\' then basenameAux cs [] else basenameAux cs (c :: acc)

/-- Model of `os.path.basename`: the component after the last path separator. -/
def basename (p : String) : String := ⟨basenameAux p.data []⟩

/-- Remove every occurrence of `pat` from the character list (`fuel` bounds
the scan; `length` fuel always suffices). -/
def stripAllF (pat : List Char) : Nat → List Char → List Char
  | 0, cs => cs
  | _ + 1, [] => []
  | f + 1, c :: cs =>
    if pat.isPrefixOf (c :: cs) && !pat.isEmpty then
      stripAllF pat f (cs.drop (pat.length - 1))
    else c :: stripAllF pat f cs

/-- Model of Python `s.replace(pat, '')`. -/
def replaceAll (s pat : String) : String := ⟨stripAllF pat.data s.data.length s.data⟩

/-- Model of Python `s.startswith(pre)`. -/
def startsWithF (s pre : String) : Bool := pre.data.isPrefixOf s.data

/-- Model of `os.path.basename(shortcut_path).replace('.lnk', '')`. -/
def appNameOf (shortcutPath : String) : String :=
  replaceAll (basename shortcutPath) ".lnk"

/-- One OS process as the scripts can observe it.
`alive`: the process exists when psutil touches it (otherwise psutil raises
`NoSuchProcess`); `denied`: signalling it raises `AccessDenied`;
`survives`: `psutil.wait_procs` / `wait` reports it still alive after the
5-second grace window. -/
structure ProcInfo where
  name : String
  alive : Bool
  denied : Bool
  survives : Bool
deriving Repr, DecidableEq

/-- A process tree rooted at the process handed to `kill_process_tree`. -/
inductive PTree where
  | node (info : ProcInfo) (children : List PTree)

/-- Root process of a tree. -/
def PTree.info : PTree → ProcInfo
  | .node i _ => i

mutual
/-- All processes of a tree, root first. -/
def PTree.allNodes : PTree → List ProcInfo
  | .node i cs => i :: PTree.allNodesL cs
/-- All processes of a forest. -/
def PTree.allNodesL : List PTree → List ProcInfo
  | [] => []
  | t :: ts => PTree.allNodes t ++ PTree.allNodesL ts
end

/-- Model of `parent.children(recursive=True)`: every strict descendant. -/
def PTree.descendants : PTree → List ProcInfo
  | .node _ cs => PTree.allNodesL cs

/-! ### Cleaned-up script: excluded-process handling and kill_process_tree -/

/-- Model of `load_config` line 43: the configured excluded process names are
lowercased once at load time
(`[proc.lower() for proc in self.config.get('excluded_processes', [])]`). -/
def load_config_excluded (raw : List String) : List String :=
  raw.map lowerStr

/-- Model of `ApplicationTester.is_system_process`:
`proc_name.lower() in self.excluded_processes`. -/
def is_system_process (excluded : List String) (procName : String) : Bool :=
  excluded.contains (lowerStr procName)

/-- First pass of `kill_process_tree` (cleaned-up script, lines 201-214): a
child contributes its name iff psutil finds it alive, it is not excluded, and
`terminate()` is not denied; `NoSuchProcess` and `AccessDenied` skip just that
child. -/
def termPass (excluded : List String) (cs : List ProcInfo) : List String :=
  (cs.filter (fun c => c.alive && !is_system_process excluded c.name && !c.denied)).map
    ProcInfo.name

/-- Second pass of `kill_process_tree` (cleaned-up script, lines 216-230):
`wait_procs` reports the survivors (`survives`), and each survivor is killed
under the same skip rules as the first pass. -/
def killPass (excluded : List String) (cs : List ProcInfo) : List String :=
  (cs.filter (fun c =>
      c.survives && (c.alive && !is_system_process excluded c.name && !c.denied))).map
    ProcInfo.name

/-- Model of `kill_process_tree` (cleaned-up script, lines 190-247).
A dead root (`NoSuchProcess`) or an excluded root returns the empty list at
once.  Otherwise both child passes run, and the parent's name is appended only
when `including_parent` is set and the parent is neither denied
(`AccessDenied` is logged) nor still alive after `parent.wait(5)` (the
`TimeoutExpired` is swallowed by the outer `except Exception`, which returns
the list accumulated so far). -/
def kill_process_tree (excluded : List String) (root : PTree)
    (includingParent : Bool) : List String :=
  let p := root.info
  if p.alive = false then []
  else if is_system_process excluded p.name then []
  else
    let ds := root.descendants
    let t := termPass excluded ds ++ killPass excluded ds
    if includingParent then
      if p.denied then t
      else if p.survives then t
      else t ++ [p.name]
    else t

/-! ### Original script: hardcoded exclusion list and exception-transparent
kill_process_tree -/

/-- The hardcoded protected list of the original script (lines 76, 83, 95). -/
def origSystemNames : List String :=
  ["svchost.exe", "csrss.exe", "wininit.exe", "services.exe"]

/-- Original script's protection test: `name.lower() in [...]`. -/
def isSysOrig (n : String) : Bool := origSystemNames.contains (lowerStr n)

/-- First child pass of the original `kill_process_tree` (lines 80-90): only
`NoSuchProcess` is caught, so an `AccessDenied` propagates out of the call. -/
def termPassOrig : List ProcInfo → Except String (List String)
  | [] => .ok []
  | c :: cs =>
    if c.alive = false then termPassOrig cs
    else if isSysOrig c.name then termPassOrig cs
    else if c.denied then .error "psutil.AccessDenied"
    else (termPassOrig cs).map (fun l => c.name :: l)

/-- Second child pass of the original `kill_process_tree` (lines 91-102), over
the `wait_procs` survivors; again only `NoSuchProcess` is caught. -/
def killPassOrig : List ProcInfo → Except String (List String)
  | [] => .ok []
  | c :: cs =>
    if c.survives = false then killPassOrig cs
    else if c.alive = false then killPassOrig cs
    else if isSysOrig c.name then killPassOrig cs
    else if c.denied then .error "psutil.AccessDenied"
    else (killPassOrig cs).map (fun l => c.name :: l)

/-- Model of the original `kill_process_tree` (lines 71-113).  The outer `try`
catches only `NoSuchProcess`; `AccessDenied` on any child and a parent that is
denied or outlives `parent.wait(5)` all escape as exceptions (`.error`),
discarding the names collected so far. -/
def kill_process_tree_orig (root : PTree) (includingParent : Bool) :
    Except String (List String) :=
  let p := root.info
  if p.alive = false then .ok []
  else if isSysOrig p.name then .ok []
  else do
    let t1 ← termPassOrig root.descendants
    let t2 ← killPassOrig root.descendants
    if includingParent then
      if p.denied then .error "psutil.AccessDenied"
      else if p.survives then .error "psutil.TimeoutExpired"
      else .ok (t1 ++ t2 ++ [p.name])
    else .ok (t1 ++ t2)

/-! ### Windows, configuration, and the per-test world -/

/-- One top-level window as the scripts can observe it.  `ownerExe` is
`os.path.basename(psutil.Process(window.process_id()).exe())`; `accessible`
means reading the window's title/pid/exe raises nothing; `closable` means
`window.close()` succeeds. -/
structure WinInfo where
  handle : Nat
  title : String
  ownerExe : String
  ownerPid : Nat
  accessible : Bool
  closable : Bool
deriving Repr, DecidableEq

/-- A process seen in the headless fallback diff of the cleaned-up script
(lines 360-372). -/
structure FProc where
  pid : Nat
  name : String
  alive : Bool
deriving Repr, DecidableEq

/-- The tuning parameters read from `self.config` (cleaned-up script lines
43, 302-305).  `excluded` is `self.excluded_processes` (already lowercased by
`load_config`). -/
structure Config where
  excluded : List String
  maxWaitTime : Nat
  pollInterval : Nat
  pauseAfterFound : Nat
  additionalWaitTime : Nat

/-- Everything the OS and the UI thread feed into one test case.  Times are
wall-clock seconds since the polling loop started.  `pauseDur t` is the total
time the `while self.testing_paused: time.sleep(1)` block spends when entered
at time `t`; `newWindowsAt t` is the window diff against the pre-launch
baseline at time `t`; `launchExn` is an exception raised by the launch
(`os.startfile`); `killTreeOf pid` is the process tree rooted at `pid`;
`residProcs`/`residWindows` are the post-teardown diffs seen by the residual
cleanup. -/
structure TestWorld where
  shortcutExists : Bool
  launchExn : Option String
  cancelledAt : Nat → Bool
  pauseDur : Nat → Nat
  uacAt : Nat → Bool
  newWindowsAt : Nat → List WinInfo
  fallbackProcs : List FProc
  killTreeOf : Nat → PTree
  residProcs : List ProcInfo
  residWindows : List WinInfo

/-- The hardcoded alias table of both scripts. -/
def executable_aliases : List (String × String) :=
  [("cmd.exe", "WindowsTerminal.exe"),
   ("powershell.exe", "WindowsTerminal.exe"),
   ("wmplayer.exe", "setup_wm.exe")]

/-- `executable_aliases.get(expected_executable_name, expected_executable_name)`. -/
def aliasLookup (expected : String) : String :=
  match executable_aliases.lookup expected with
  | some a => a
  | none => expected

/-- The result record assembled per test case (the accumulator lists are kept
as lists; the scripts' final `'; '.join(set(...))` rendering is external
result presentation). -/
structure TestResult where
  name : String
  shortcutPath : String
  expectedExecutable : String
  status : String
  remarks : String
  associatedWindows : List String
  terminatedExecutables : List String
  closedWindows : List String
deriving Repr, DecidableEq

/-- The freshly initialised result dict (cleaned-up script lines 254-263). -/
def initResult (appName shortcutName expectedName : String) : TestResult :=
  { name := appName, shortcutPath := shortcutName
    expectedExecutable := expectedName, status := "Not Tested", remarks := ""
    associatedWindows := [], terminatedExecutables := [], closedWindows := [] }

/-! ### Cleaned-up script: detection loop and orchestrator -/

/-- The cleaned-up script's window matcher (lines 332-348): a new window
matches if its fields are readable and either its owning executable equals the
aliased expected name case-insensitively or the display name occurs
case-insensitively in its title. -/
def matchWin (actual appName : String) (v : WinInfo) : Bool :=
  v.accessible && (lowerEq v.ownerExe actual || containsCI appName v.title)

/-- Outcome of the polling loop of the cleaned-up script. -/
inductive DetectOutcome where
  | found (win : WinInfo) (t : Nat)
  | uacSeen (t : Nat)
  | cancelledSeen
  | timedOut
  | hung
deriving Repr, DecidableEq

/-- Loop outcome together with the number of window snapshots taken. -/
structure DetectRes where
  outcome : DetectOutcome
  polls : Nat
deriving Repr, DecidableEq

/-- The polling loop of the cleaned-up script (lines 307-355).  Each
iteration: check the wall-clock budget (`time.time() - start_time <
max_wait_time`, with `start_time` never adjusted), then the cancel flag, then
block for the pause duration, then check for UAC, then diff and match the
window set, else sleep `poll_interval`.  `fuel` bounds the iteration count
(the real loop can only spin forever when `poll_interval` is 0 and no pause
happens; that degenerate spin is reported as `hung`). -/
def detectAux (cfg : Config) (w : TestWorld) (actual appName : String) :
    Nat → Nat → Nat → DetectRes
  | 0, t, polls =>
    if cfg.maxWaitTime ≤ t then ⟨.timedOut, polls⟩ else ⟨.hung, polls⟩
  | fuel + 1, t, polls =>
    if cfg.maxWaitTime ≤ t then ⟨.timedOut, polls⟩
    else if w.cancelledAt t then ⟨.cancelledSeen, polls⟩
    else
      let t1 := t + w.pauseDur t
      if w.uacAt t1 then ⟨.uacSeen t1, polls⟩
      else
        match (w.newWindowsAt t1).find? (matchWin actual appName) with
        | some win => ⟨.found win t1, polls + 1⟩
        | none => detectAux cfg w actual appName fuel (t1 + cfg.pollInterval) (polls + 1)

/-- The polling loop entered at time 0 with enough fuel for any positive
`poll_interval`. -/
def detect (cfg : Config) (w : TestWorld) (actual appName : String) : DetectRes :=
  detectAux cfg w actual appName (cfg.maxWaitTime + 1) 0 0

/-- Teardown and residual sweep of the cleaned-up script (lines 380-439):
close the found window if any (`close()` then `window_text()`, any failure
only logged), run `kill_process_tree` on the main pid when it is truthy,
terminate unprotected residual processes (same skip rules as the child pass),
close every readable-and-closable residual window with no protection check,
and assemble the `Success` record. -/
def finishTest (cfg : Config) (w : TestWorld) (r0 : TestResult)
    (foundWin : Option WinInfo) (mainPid : Option Nat) (assoc : List String) :
    TestResult :=
  let closed1 := match foundWin with
    | some v => if v.accessible && v.closable then [v.title] else []
    | none => []
  let term1 := match mainPid with
    | some p =>
      if p ≠ 0 then kill_process_tree cfg.excluded (w.killTreeOf p) true else []
    | none => []
  let term2 := termPass cfg.excluded w.residProcs
  let closed2 :=
    (w.residWindows.filter (fun v => v.accessible && v.closable)).map WinInfo.title
  { r0 with
    status := "Success"
    remarks := "Application tested successfully."
    associatedWindows := assoc
    terminatedExecutables := term1 ++ term2
    closedWindows := closed1 ++ closed2 }

/-- Model of `launch_and_test_application` (cleaned-up script, lines 249-446).
A missing shortcut fails fast; a launch-time exception is caught by the
per-case `except Exception` (lines 441-444) and recorded as `Failed` with the
exception text; the loop outcome branches exactly as in the source, with the
headless process fallback (lines 357-378) running whenever no window matched
before the budget expired. -/
def launch_and_test_application (cfg : Config) (w : TestWorld)
    (shortcutPath expectedExePath appName : String) : TestResult :=
  let shortcutName := basename shortcutPath
  let expectedName := lowerStr (basename expectedExePath)
  let actual := aliasLookup expectedName
  let r0 := initResult appName shortcutName expectedName
  if w.shortcutExists = false then
    { r0 with status := "Failed", remarks := "Shortcut not found: " ++ shortcutName }
  else
    match w.launchExn with
    | some msg =>
      { r0 with status := "Failed", remarks := "Exception occurred: " ++ msg }
    | none =>
      match (detect cfg w actual appName).outcome with
      | .cancelledSeen =>
        { r0 with status := "Cancelled", remarks := "Testing cancelled by user." }
      | .uacSeen _ =>
        { r0 with
          status := "Manual Intervention Required"
          remarks := "Application triggered UAC prompt."
          associatedWindows := ["User Account Control"] }
      | .hung => r0
      | .found win _ => finishTest cfg w r0 (some win) (some win.ownerPid) [win.title]
      | .timedOut =>
        match (w.fallbackProcs.find? (fun q => q.alive && lowerEq q.name actual)).map
            FProc.pid with
        | none =>
          { r0 with
            status := "Failed"
            remarks := "Application did not open any windows or detectable processes." }
        | some mp => finishTest cfg w r0 none (some mp) []

/-! ### Cleaned-up script: run controller -/

/-- Model of the loop of `run_tests` (cleaned-up script, lines 502-517): the
cancel flag is sampled before each case and a set flag breaks out of the loop;
otherwise the case is run and its result appended.  `i` is the zero-based
index of the next case, used to sample the per-case world and flag. -/
def run_tests (cfg : Config) (worlds : Nat → TestWorld) (cancelAt : Nat → Bool) :
    Nat → List (String × String) → List TestResult
  | _, [] => []
  | i, (sp, ep) :: rest =>
    if cancelAt i then []
    else
      launch_and_test_application cfg (worlds i) sp ep (appNameOf sp) ::
        run_tests cfg worlds cancelAt (i + 1) rest

/-- The number of cases the controller consumes before first observing the
cancel flag. -/
def processedCount (cancelAt : Nat → Bool) : Nat → Nat → Nat
  | _, 0 => 0
  | i, n + 1 =>
    if cancelAt i then 0 else processedCount cancelAt (i + 1) n + 1

/-- Pure one-result-per-case mapping of an inventory prefix, starting at
index `i`. -/
def mapFrom (cfg : Config) (worlds : Nat → TestWorld) :
    Nat → List (String × String) → List TestResult
  | _, [] => []
  | i, (sp, ep) :: rest =>
    launch_and_test_application cfg (worlds i) sp ep (appNameOf sp) ::
      mapFrom cfg worlds (i + 1) rest

/-! ### Original script: detection loop and orchestrator -/

/-- First matcher of the original loop (lines 224-245): owning-executable
equality only. -/
def matchWinExe (actual : String) (v : WinInfo) : Bool :=
  v.accessible && lowerEq v.ownerExe actual

/-- Second matcher of the original loop (lines 250-271): case-insensitive
display-name-in-title only. -/
def matchWinTitle (appName : String) (v : WinInfo) : Bool :=
  v.accessible && containsCI appName v.title

/-- Outcome of the original script's polling loop; `timedOut` carries the
window diff of the last executed iteration (`new_windows_handles`, initialised
empty before the loop). -/
inductive OrigOutcome where
  | found (win : WinInfo)
  | uacSeen
  | timedOut (lastDiff : List WinInfo)
  | hung
deriving Repr, DecidableEq

/-- The polling loop of the original script (lines 201-276): hardcoded
`max_wait_time = 20` and `poll_interval = 2`, no pause/cancel handling, UAC
check, then the executable-name pass followed by the title pass. -/
def origDetectAux (w : TestWorld) (actual appName : String) :
    Nat → Nat → List WinInfo → OrigOutcome
  | 0, t, last => if 20 ≤ t then .timedOut last else .hung
  | fuel + 1, t, last =>
    if 20 ≤ t then .timedOut last
    else if w.uacAt t then .uacSeen
    else
      let nw := w.newWindowsAt t
      match nw.find? (matchWinExe actual) with
      | some win => .found win
      | none =>
        match nw.find? (matchWinTitle appName) with
        | some win => .found win
        | none => origDetectAux w actual appName fuel (t + 2) nw

/-- The original loop entered at time 0 (10 polls of 2 seconds fit in the
20-second budget, so 21 units of fuel always suffice). -/
def origDetect (w : TestWorld) (actual appName : String) : OrigOutcome :=
  origDetectAux w actual appName 21 0 []

/-- Body of the original `launch_and_test_application` inside its `try`
(lines 190-369); exceptions that the body does not handle locally are
`.error`.  At every raise point modelled here the accumulator lists are still
empty, matching the record built by the `except` branch. -/
def orig_body (w : TestWorld) (actual appName : String) (r0 : TestResult) :
    Except String TestResult :=
  match w.launchExn with
  | some msg => .error msg
  | none =>
    match origDetect w actual appName with
    | .uacSeen =>
      .ok { r0 with
            status := "Manual Intervention Required"
            remarks := "Application triggered UAC prompt."
            associatedWindows := ["User Account Control"] }
    | .hung => .ok r0
    | .timedOut last =>
      if last.isEmpty then
        .ok { r0 with
              status := "Failed"
              remarks := "No application windows opened after starting the application." }
      else
        .ok { r0 with
              status := "Mostly Pass"
              remarks := "Expected application window not found, but other windows were handled."
              associatedWindows := (last.filter (fun v => v.accessible)).map WinInfo.title
              closedWindows :=
                (last.filter (fun v => v.accessible && v.closable)).map WinInfo.title }
    | .found win => do
      let closed1 := if win.accessible && win.closable then [win.title] else []
      let t1 ←
        if win.ownerPid ≠ 0 then kill_process_tree_orig (w.killTreeOf win.ownerPid) true
        else .ok []
      let t2 ← termPassOrig w.residProcs
      let closed2 :=
        (w.residWindows.filter (fun v => v.accessible && v.closable)).map WinInfo.title
      .ok { r0 with
            status := "Perfect Pass"
            remarks := "Expected application window opened and closed successfully."
            associatedWindows := [win.title]
            terminatedExecutables := t1 ++ t2
            closedWindows := closed1 ++ closed2 }

/-- Model of the original `launch_and_test_application` (lines 152-378): the
shortcut check, then the `try` body, with any escaping exception recorded as
`Failed` with the exception text (lines 371-377). -/
def orig_launch_and_test (w : TestWorld)
    (shortcutPath expectedExePath appName : String) : TestResult :=
  let shortcutName := basename shortcutPath
  let expectedName := lowerStr (basename expectedExePath)
  let actual := aliasLookup expectedName
  let r0 := initResult appName shortcutName expectedName
  if w.shortcutExists = false then
    { r0 with status := "Failed", remarks := "Shortcut not found: " ++ shortcutName }
  else
    match orig_body w actual appName r0 with
    | .ok r => r
    | .error e =>
      { r0 with status := "Failed", remarks := "Exception occurred: " ++ e }

/-! ### load_files (both scripts, identical logic) -/

/-- The `zip`-and-filter of `load_files` (cleaned-up script lines 85-88,
original lines 46-49): pairs are consumed in lockstep (`zip` silently
truncates to the shorter list) and a pair is kept unless the shortcut entry
starts with `[Folder]`. -/
def filterEntries : List String → List String → List String × List String
  | s :: ss, e :: es =>
    let r := filterEntries ss es
    if startsWithF s "[Folder]" then r else (s :: r.1, e :: r.2)
  | _, _ => ([], [])

/-- Model of `load_files` after both files are read (cleaned-up script lines
81-98): run the zip-filter, then fail iff the two filtered lists have
different lengths. -/
def load_files (shortcuts executables : List String) :
    Option (List String × List String) :=
  let fs := filterEntries shortcuts executables
  if fs.1.length ≠ fs.2.length then none else some fs

/-! ### Helper lemmas -/

/-- Every name the first child pass reports belongs to a non-excluded process. -/
theorem termPass_mem (ex : List String) (cs : List ProcInfo) (n : String)
    (h : n ∈ termPass ex cs) : is_system_process ex n = false := by
  simp only [termPass, List.mem_map, List.mem_filter] at h
  obtain ⟨c, ⟨-, hcond⟩, rfl⟩ := h
  simp only [Bool.and_eq_true, Bool.not_eq_true'] at hcond
  tauto

/-- Every name the kill pass reports belongs to a non-excluded process. -/
theorem killPass_mem (ex : List String) (cs : List ProcInfo) (n : String)
    (h : n ∈ killPass ex cs) : is_system_process ex n = false := by
  simp only [killPass, List.mem_map, List.mem_filter] at h
  obtain ⟨c, ⟨-, hcond⟩, rfl⟩ := h
  simp only [Bool.and_eq_true, Bool.not_eq_true'] at hcond
  tauto

/-- `kill_process_tree` never returns an excluded name. -/
theorem kill_process_tree_mem (ex : List String) (t : PTree) (b : Bool)
    (n : String) (h : n ∈ kill_process_tree ex t b) :
    is_system_process ex n = false := by
  simp only [kill_process_tree] at h
  split at h
  · simp at h
  · split at h
    · simp at h
    · rename_i hroot
      split at h
      · split at h
        · rcases List.mem_append.1 h with h1 | h1
          · exact termPass_mem _ _ _ h1
          · exact killPass_mem _ _ _ h1
        · split at h
          · rcases List.mem_append.1 h with h1 | h1
            · exact termPass_mem _ _ _ h1
            · exact killPass_mem _ _ _ h1
          · rcases List.mem_append.1 h with h1 | h1
            · rcases List.mem_append.1 h1 with h2 | h2
              · exact termPass_mem _ _ _ h2
              · exact killPass_mem _ _ _ h2
            · simp only [List.mem_singleton] at h1
              subst h1
              exact Bool.eq_false_iff.2 hroot
      · rcases List.mem_append.1 h with h1 | h1
        · exact termPass_mem _ _ _ h1
        · exact killPass_mem _ _ _ h1

/-- A protected root aborts `kill_process_tree` with an empty result. -/
theorem kill_process_tree_protected_root (ex : List String) (t : PTree)
    (b : Bool) (h : is_system_process ex t.info.name = true) :
    kill_process_tree ex t b = [] := by
  by_cases ha : t.info.alive = false <;> simp [kill_process_tree, h, ha]

/-- The residual/teardown phase only reports non-excluded terminated names. -/
theorem finishTest_term_mem (cfg : Config) (w : TestWorld) (r0 : TestResult)
    (fw : Option WinInfo) (mp : Option Nat) (assoc : List String) (n : String)
    (h : n ∈ (finishTest cfg w r0 fw mp assoc).terminatedExecutables) :
    is_system_process cfg.excluded n = false := by
  simp only [finishTest] at h
  rcases List.mem_append.1 h with h1 | h1
  · rcases mp with _ | p
    · simp at h1
    · simp only [] at h1
      split at h1
      · exact kill_process_tree_mem _ _ _ _ h1
      · simp at h1
  · exact termPass_mem _ _ _ h1

/-- `launch_and_test_application` only ever records non-excluded terminated
names. -/
theorem launch_term_mem (cfg : Config) (w : TestWorld) (sp ep an n : String)
    (h : n ∈ (launch_and_test_application cfg w sp ep an).terminatedExecutables) :
    is_system_process cfg.excluded n = false := by
  simp only [launch_and_test_application] at h
  split at h
  · simp [initResult] at h
  · split at h
    · simp [initResult] at h
    · split at h
      · simp [initResult] at h
      · simp [initResult] at h
      · simp [initResult] at h
      · exact finishTest_term_mem _ _ _ _ _ _ _ h
      · split at h
        · simp [initResult] at h
        · exact finishTest_term_mem _ _ _ _ _ _ _ h

/-- Once the wall-clock budget is spent the loop exits at the top, whatever
fuel is left. -/
theorem detectAux_done (cfg : Config) (w : TestWorld) (a an : String)
    (fuel t polls : Nat) (h : cfg.maxWaitTime ≤ t) :
    detectAux cfg w a an fuel t polls = ⟨DetectOutcome.timedOut, polls⟩ := by
  cases fuel <;> simp [detectAux, h]

/-- With no cancel, no UAC and no matching window ever, and a positive poll
interval, the loop always times out. -/
theorem detectAux_timeout (cfg : Config) (w : TestWorld) (a an : String)
    (hc : ∀ t, w.cancelledAt t = false) (hu : ∀ t, w.uacAt t = false)
    (hw : ∀ t, (w.newWindowsAt t).find? (matchWin a an) = none)
    (hp : 1 ≤ cfg.pollInterval) :
    ∀ fuel t polls, cfg.maxWaitTime ≤ t + fuel →
      (detectAux cfg w a an fuel t polls).outcome = DetectOutcome.timedOut := by
  intro fuel
  induction fuel with
  | zero =>
    intro t polls h
    rw [detectAux_done cfg w a an 0 t polls (by omega)]
  | succ m ih =>
    intro t polls h
    by_cases hle : cfg.maxWaitTime ≤ t
    · rw [detectAux_done cfg w a an _ t polls hle]
    · simp only [detectAux, hle, if_false, hc t, hu, hw]
      exact ih _ _ (by omega)

/-- `detect` under the same assumptions. -/
theorem detect_timeout (cfg : Config) (w : TestWorld) (a an : String)
    (hc : ∀ t, w.cancelledAt t = false) (hu : ∀ t, w.uacAt t = false)
    (hw : ∀ t, (w.newWindowsAt t).find? (matchWin a an) = none)
    (hp : 1 ≤ cfg.pollInterval) :
    (detect cfg w a an).outcome = DetectOutcome.timedOut :=
  detectAux_timeout cfg w a an hc hu hw hp _ _ _ (by omega)

/-- Original loop: budget spent means exit with the last diff. -/
theorem origDetectAux_done (w : TestWorld) (a an : String)
    (fuel t : Nat) (last : List WinInfo) (h : 20 ≤ t) :
    origDetectAux w a an fuel t last = OrigOutcome.timedOut last := by
  cases fuel <;> simp [origDetectAux, h]

/-- Original loop: with no UAC and a constant window diff matching neither
heuristic, the loop times out carrying that diff. -/
theorem origDetectAux_timeout (w : TestWorld) (a an : String) (ws : List WinInfo)
    (hu : ∀ t, w.uacAt t = false) (hw : ∀ t, w.newWindowsAt t = ws)
    (h1 : ws.find? (matchWinExe a) = none)
    (h2 : ws.find? (matchWinTitle an) = none) :
    ∀ fuel t last, 20 ≤ t + 2 * fuel → t < 20 →
      origDetectAux w a an fuel t last = OrigOutcome.timedOut ws := by
  intro fuel
  induction fuel with
  | zero =>
    intro t last h hlt
    exact absurd h (by omega)
  | succ m ih =>
    intro t last h hlt
    have hnle : ¬ 20 ≤ t := by omega
    simp only [origDetectAux, hnle, if_false, hu, hw, h1, h2]
    by_cases h20 : t + 2 < 20
    · exact ih (t + 2) ws (by omega) h20
    · exact origDetectAux_done w a an m (t + 2) ws (by omega)

/-- `origDetect` under the same assumptions. -/
theorem origDetect_timeout (w : TestWorld) (a an : String) (ws : List WinInfo)
    (hu : ∀ t, w.uacAt t = false) (hw : ∀ t, w.newWindowsAt t = ws)
    (h1 : ws.find? (matchWinExe a) = none)
    (h2 : ws.find? (matchWinTitle an) = none) :
    origDetect w a an = OrigOutcome.timedOut ws :=
  origDetectAux_timeout w a an ws hu hw h1 h2 21 0 [] (by omega) (by omega)

/-- The run controller produces exactly the mapped prefix of cases consumed
before cancellation. -/
theorem run_tests_eq_mapFrom (cfg : Config) (worlds : Nat → TestWorld)
    (cancelAt : Nat → Bool) :
    ∀ (cases : List (String × String)) (i : Nat),
      run_tests cfg worlds cancelAt i cases =
        mapFrom cfg worlds i (cases.take (processedCount cancelAt i cases.length)) := by
  intro cases
  induction cases with
  | nil => intro i; simp [run_tests, mapFrom]
  | cons c rest ih =>
    intro i
    obtain ⟨sp, ep⟩ := c
    by_cases hc : cancelAt i
    · simp [run_tests, processedCount, hc, mapFrom]
    · simp only [run_tests, processedCount, hc, if_false, List.length_cons,
        Bool.false_eq_true, List.take_succ_cons, mapFrom]
      rw [ih (i + 1)]

/-- `mapFrom` produces one result per case. -/
theorem mapFrom_length (cfg : Config) (worlds : Nat → TestWorld) :
    ∀ (cases : List (String × String)) (i : Nat),
      (mapFrom cfg worlds i cases).length = cases.length := by
  intro cases
  induction cases with
  | nil => intro i; simp [mapFrom]
  | cons c rest ih =>
    intro i
    obtain ⟨sp, ep⟩ := c
    simp [mapFrom, ih]

/-- The count of consumed cases never exceeds the inventory length. -/
theorem processedCount_le (cancelAt : Nat → Bool) :
    ∀ (n i : Nat), processedCount cancelAt i n ≤ n := by
  intro n
  induction n with
  | zero => intro i; simp [processedCount]
  | succ m ih =>
    intro i
    by_cases hc : cancelAt i <;> simp [processedCount, hc]
    exact ih (i + 1)

/-- Without cancellation every case is consumed. -/
theorem processedCount_of_no_cancel (cancelAt : Nat → Bool)
    (h : ∀ i, cancelAt i = false) :
    ∀ (n i : Nat), processedCount cancelAt i n = n := by
  intro n
  induction n with
  | zero => intro i; simp [processedCount]
  | succ m ih => intro i; simp [processedCount, h, ih]

/-- Names returned by the original first pass are never protected. -/
theorem termPassOrig_mem (cs : List ProcInfo) (l : List String) (n : String)
    (hok : termPassOrig cs = .ok l) (h : n ∈ l) : isSysOrig n = false := by
  induction cs generalizing l with
  | nil =>
    simp only [termPassOrig] at hok
    cases hok
    simp at h
  | cons c rest ih =>
    simp only [termPassOrig] at hok
    split at hok
    · exact ih _ hok h
    · split at hok
      · exact ih _ hok h
      · split at hok
        · cases hok
        · rename_i hsys _
          rcases hrest : termPassOrig rest with e | l2
          · rw [hrest] at hok; cases hok
          · rw [hrest] at hok
            simp only [Except.map] at hok
            cases hok
            rcases List.mem_cons.1 h with h1 | h1
            · subst h1; exact Bool.eq_false_iff.2 hsys
            · exact ih _ hrest h1

/-- Names returned by the original kill pass are never protected. -/
theorem killPassOrig_mem (cs : List ProcInfo) (l : List String) (n : String)
    (hok : killPassOrig cs = .ok l) (h : n ∈ l) : isSysOrig n = false := by
  induction cs generalizing l with
  | nil =>
    simp only [killPassOrig] at hok
    cases hok
    simp at h
  | cons c rest ih =>
    simp only [killPassOrig] at hok
    split at hok
    · exact ih _ hok h
    · split at hok
      · exact ih _ hok h
      · split at hok
        · exact ih _ hok h
        · split at hok
          · cases hok
          · rename_i hsys _
            rcases hrest : killPassOrig rest with e | l2
            · rw [hrest] at hok; cases hok
            · rw [hrest] at hok
              simp only [Except.map] at hok
              cases hok
              rcases List.mem_cons.1 h with h1 | h1
              · subst h1; exact Bool.eq_false_iff.2 hsys
              · exact ih _ hrest h1

/-- A successful original `kill_process_tree` never returns a protected name. -/
theorem kill_process_tree_orig_mem (t : PTree) (b : Bool) (l : List String)
    (n : String) (hok : kill_process_tree_orig t b = .ok l) (h : n ∈ l) :
    isSysOrig n = false := by
  simp only [kill_process_tree_orig] at hok
  split at hok
  · cases hok; simp at h
  · split at hok
    · cases hok; simp at h
    · rename_i hroot
      rcases h1 : termPassOrig t.descendants with e1 | l1 <;>
          simp only [h1, bind, Except.bind] at hok
      · cases hok
      · rcases h2 : killPassOrig t.descendants with e2 | l2 <;>
          simp only [h2, bind, Except.bind] at hok
        · cases hok
        · split at hok
          · split at hok
            · cases hok
            · split at hok
              · cases hok
              · cases hok
                rcases List.mem_append.1 h with h3 | h3
                · rcases List.mem_append.1 h3 with h4 | h4
                  · exact termPassOrig_mem _ _ _ h1 h4
                  · exact killPassOrig_mem _ _ _ h2 h4
                · simp only [List.mem_singleton] at h3
                  subst h3
                  exact Bool.eq_false_iff.2 hroot
          · cases hok
            rcases List.mem_append.1 h with h3 | h3
            · exact termPassOrig_mem _ _ _ h1 h3
            · exact killPassOrig_mem _ _ _ h2 h3

/-- Concatenation distributes over forest flattening. -/
theorem PTree.allNodesL_append (xs ys : List PTree) :
    PTree.allNodesL (xs ++ ys) = PTree.allNodesL xs ++ PTree.allNodesL ys := by
  induction xs with
  | nil => simp [PTree.allNodesL]
  | cons t ts ih => simp [PTree.allNodesL, ih]

/-! ### Shared concrete test data -/

/-- A small concrete configuration: `svchost.exe` protected, 4-second budget,
2-second poll interval. -/
def cfgA : Config where
  excluded := ["svchost.exe"]
  maxWaitTime := 4
  pollInterval := 2
  pauseAfterFound := 2
  additionalWaitTime := 5

/-- A quiet world: the shortcut exists, launching raises nothing, no
cancel/pause/UAC, no window ever appears, no new processes, a one-node
`app.exe` tree behind every pid, and nothing residual. -/
def worldQuiet : TestWorld where
  shortcutExists := true
  launchExn := none
  cancelledAt := fun _ => false
  pauseDur := fun _ => 0
  uacAt := fun _ => false
  newWindowsAt := fun _ => []
  fallbackProcs := []
  killTreeOf := fun _ => PTree.node ⟨"app.exe", true, false, false⟩ []
  residProcs := []
  residWindows := []

/-- The matching application window used by several scenarios. -/
def winApp : WinInfo := ⟨5, "App", "app.exe", 42, true, true⟩

/-- A window matching neither heuristic for expected name `app.exe`, display
name `App`. -/
def winOther : WinInfo := ⟨7, "Other", "other.exe", 9, true, true⟩

/-! ### Claim C1 -/

/-- World for C1: no window ever matches, the headless fallback finds
`app.exe`, and after teardown one residual window owned by the protected
`svchost.exe` process is left open. -/
def world1 : TestWorld :=
  { worldQuiet with
    fallbackProcs := [⟨42, "app.exe", true⟩]
    residWindows := [⟨9, "Svchost Window", "svchost.exe", 4, true, true⟩] }

/-- Claim C1 counterexample: the residual-window sweep (cleaned-up script
lines 418-430) closes and records every leftover window without consulting
the protected list, so the title of a window owned by the protected
`svchost.exe` process ends up in the result's closed-windows field. -/
theorem claim1_counterexample :
    "Svchost Window" ∈
      (launch_and_test_application cfgA world1 "App.lnk" "C:\\x\\app.exe"
        "App").closedWindows ∧
    world1.residWindows.map WinInfo.ownerExe = ["svchost.exe"] ∧
    is_system_process cfgA.excluded "svchost.exe" = true := by
  decide

/-- Claim C1 (amended): the terminated-executables field never contains a
protected name — every append is guarded by `is_system_process` — and
`kill_process_tree` never returns a protected name and returns empty
immediately on a protected root; the protection does not extend to closed
window titles. -/
theorem claim1_protected_amended :
    (∀ (cfg : Config) (w : TestWorld) (sp ep an n : String),
        n ∈ (launch_and_test_application cfg w sp ep an).terminatedExecutables →
        is_system_process cfg.excluded n = false) ∧
    (∀ (ex : List String) (t : PTree) (b : Bool) (n : String),
        n ∈ kill_process_tree ex t b → is_system_process ex n = false) ∧
    (∀ (ex : List String) (t : PTree) (b : Bool),
        is_system_process ex t.info.name = true → kill_process_tree ex t b = []) :=
  ⟨launch_term_mem, kill_process_tree_mem, kill_process_tree_protected_root⟩

/-- World for the C1 witness: headless detection plus one unprotected
residual process. -/
def world1w : TestWorld :=
  { worldQuiet with
    fallbackProcs := [⟨42, "app.exe", true⟩]
    residProcs := [⟨"worker.exe", true, false, false⟩] }

/-- Claim C1 witness at concrete inputs. -/
theorem claim1_witness :
    is_system_process cfgA.excluded "worker.exe" = false ∧
    kill_process_tree ["svchost.exe"]
      (PTree.node ⟨"SVCHOST.EXE", true, false, false⟩
        [PTree.node ⟨"child.exe", true, false, false⟩ []]) true = [] :=
  ⟨claim1_protected_amended.1 cfgA world1w "App.lnk" "C:\\x\\app.exe" "App"
      "worker.exe" (by decide),
   claim1_protected_amended.2.2 ["svchost.exe"]
      (PTree.node ⟨"SVCHOST.EXE", true, false, false⟩
        [PTree.node ⟨"child.exe", true, false, false⟩ []]) true (by decide)⟩

/-! ### Claim C2 -/

/-- Claim C2: an exception raised inside a test case is caught at the
per-case boundary — the case's result is `Failed` with the exception text in
remarks (in both scripts) — and the controller still produces one result per
case, so no single case's exception aborts the batch. -/
theorem claim2_exception_contained :
    (∀ (cfg : Config) (w : TestWorld) (sp ep an msg : String),
        w.shortcutExists = true → w.launchExn = some msg →
        launch_and_test_application cfg w sp ep an =
          { initResult an (basename sp) (lowerStr (basename ep)) with
            status := "Failed"
            remarks := "Exception occurred: " ++ msg }) ∧
    (∀ (w : TestWorld) (sp ep an msg : String),
        w.shortcutExists = true → w.launchExn = some msg →
        orig_launch_and_test w sp ep an =
          { initResult an (basename sp) (lowerStr (basename ep)) with
            status := "Failed"
            remarks := "Exception occurred: " ++ msg }) ∧
    (∀ (cfg : Config) (worlds : Nat → TestWorld) (cancelAt : Nat → Bool)
        (cases : List (String × String)),
        (∀ i, cancelAt i = false) →
        (run_tests cfg worlds cancelAt 0 cases).length = cases.length) := by
  refine ⟨?_, ?_, ?_⟩
  · intro cfg w sp ep an msg h1 h2
    simp [launch_and_test_application, h1, h2]
  · intro w sp ep an msg h1 h2
    simp [orig_launch_and_test, orig_body, h1, h2]
  · intro cfg worlds cancelAt cases hnc
    rw [run_tests_eq_mapFrom, mapFrom_length,
      processedCount_of_no_cancel cancelAt hnc, List.take_length]

/-- World for the C2 witness: launching raises `boom`. -/
def world2 : TestWorld := { worldQuiet with launchExn := some "boom" }

/-- Claim C2 witness at concrete inputs. -/
theorem claim2_witness :
    launch_and_test_application cfgA world2 "App.lnk" "C:\\x\\app.exe" "App" =
      { initResult "App" (basename "App.lnk") (lowerStr (basename "C:\\x\\app.exe")) with
        status := "Failed"
        remarks := "Exception occurred: " ++ "boom" } ∧
    (run_tests cfgA (fun _ => world2) (fun _ => false) 0
      [("App.lnk", "C:\\x\\app.exe"), ("B.lnk", "b.exe")]).length = 2 :=
  ⟨claim2_exception_contained.1 cfgA world2 "App.lnk" "C:\\x\\app.exe" "App"
      "boom" rfl rfl,
   claim2_exception_contained.2.2 cfgA (fun _ => world2) (fun _ => false)
      [("App.lnk", "C:\\x\\app.exe"), ("B.lnk", "b.exe")] (fun _ => rfl)⟩

/-! ### Claim C3 -/

/-- Claim C3: the run controller emits exactly one result per case consumed,
in input order — the result list is precisely the per-case mapping of the
inventory prefix consumed before cancellation, and its length equals the
number of cases processed.  This holds for every world, including failing
ones, because `launch_and_test_application` is total. -/
theorem claim3_results_in_order :
    ∀ (cfg : Config) (worlds : Nat → TestWorld) (cancelAt : Nat → Bool)
      (cases : List (String × String)),
      run_tests cfg worlds cancelAt 0 cases =
        mapFrom cfg worlds 0
          (cases.take (processedCount cancelAt 0 cases.length)) ∧
      (run_tests cfg worlds cancelAt 0 cases).length =
        processedCount cancelAt 0 cases.length := by
  intro cfg worlds cancelAt cases
  refine ⟨run_tests_eq_mapFrom cfg worlds cancelAt cases 0, ?_⟩
  rw [run_tests_eq_mapFrom cfg worlds cancelAt cases 0, mapFrom_length,
    List.length_take]
  exact Nat.min_eq_left (processedCount_le cancelAt cases.length 0)

/-! ### Claim C4 -/

/-- World for C4: nothing ever shows a window, but the post-timeout process
diff contains a new process whose name equals the aliased expected
executable name. -/
def world4 : TestWorld := { worldQuiet with fallbackProcs := [⟨42, "app.exe", true⟩] }

/-- Claim C4 counterexample: in the original script there is no process-only
fallback — when the budget expires with no new windows the case is failed
outright even though a new process matching the (aliased) expected executable
name exists in the process diff. -/
theorem claim4_counterexample :
    (orig_launch_and_test world4 "App.lnk" "C:\\x\\app.exe" "App").status =
      "Failed" ∧
    (orig_launch_and_test world4 "App.lnk" "C:\\x\\app.exe" "App").remarks =
      "No application windows opened after starting the application." ∧
    world4.fallbackProcs = [⟨42, "app.exe", true⟩] := by
  decide

/-- Claim C4 (amended): in the cleaned-up script, when the budget expires
with no new windows (no cancel/UAC), the process-only fallback decides the
case — a new process matching the aliased expected name makes the launch
count as detected (the case proceeds to teardown and ends `Success`), and
only otherwise is the case failed with the no-windows-no-processes remark. -/
theorem claim4_headless_amended :
    ∀ (cfg : Config) (w : TestWorld) (sp ep an : String),
      w.shortcutExists = true → w.launchExn = none →
      (∀ t, w.cancelledAt t = false) → (∀ t, w.uacAt t = false) →
      (∀ t, w.newWindowsAt t = []) → 1 ≤ cfg.pollInterval →
      ((w.fallbackProcs.find?
          (fun q => q.alive && lowerEq q.name (aliasLookup (lowerStr (basename ep)))) =
            none →
        launch_and_test_application cfg w sp ep an =
          { initResult an (basename sp) (lowerStr (basename ep)) with
            status := "Failed"
            remarks := "Application did not open any windows or detectable processes." }) ∧
       (∀ q,
        w.fallbackProcs.find?
          (fun q => q.alive && lowerEq q.name (aliasLookup (lowerStr (basename ep)))) =
            some q →
        (launch_and_test_application cfg w sp ep an).status = "Success")) := by
  intro cfg w sp ep an h1 h2 hc hu hwin hp
  have hfind : ∀ t, (w.newWindowsAt t).find?
      (matchWin (aliasLookup (lowerStr (basename ep))) an) = none := by
    intro t; rw [hwin t]; rfl
  have hdet := detect_timeout cfg w (aliasLookup (lowerStr (basename ep))) an
    hc hu hfind hp
  constructor
  · intro hnone
    simp [launch_and_test_application, h1, h2, hdet, hnone]
  · intro q hq
    simp [launch_and_test_application, h1, h2, hdet, hq, finishTest]

/-- Claim C4 witness at concrete inputs. -/
theorem claim4_witness :
    launch_and_test_application cfgA worldQuiet "App.lnk" "C:\\x\\app.exe" "App" =
      { initResult "App" (basename "App.lnk") (lowerStr (basename "C:\\x\\app.exe")) with
        status := "Failed"
        remarks := "Application did not open any windows or detectable processes." } ∧
    (launch_and_test_application cfgA world4 "App.lnk" "C:\\x\\app.exe"
      "App").status = "Success" :=
  ⟨(claim4_headless_amended cfgA worldQuiet "App.lnk" "C:\\x\\app.exe" "App"
      rfl rfl (fun _ => rfl) (fun _ => rfl) (fun _ => rfl) (by decide)).1 (by decide),
   (claim4_headless_amended cfgA world4 "App.lnk" "C:\\x\\app.exe" "App"
      rfl rfl (fun _ => rfl) (fun _ => rfl) (fun _ => rfl) (by decide)).2
     ⟨42, "app.exe", true⟩ (by decide)⟩

/-! ### Claim C5 -/

/-- World for C5: a single window that matches neither heuristic is present
at every poll; no matching process either. -/
def world5 : TestWorld := { worldQuiet with newWindowsAt := fun _ => [winOther] }

/-- Claim C5 counterexample: in the cleaned-up script the degraded-pass
branch does not exist — when the budget expires with a non-matching new
window present, the case falls through to the process-only check and is
failed (status `Failed`, not `Mostly Pass`), with nothing closed or
recorded. -/
theorem claim5_counterexample :
    (launch_and_test_application cfgA world5 "App.lnk" "C:\\x\\app.exe"
      "App").status = "Failed" ∧
    (launch_and_test_application cfgA world5 "App.lnk" "C:\\x\\app.exe"
      "App").closedWindows = [] := by
  decide

/-- Claim C5 (amended): in the original script, when the budget expires with
new windows present but none matching either heuristic, the case is a
degraded pass — the unmatched accessible windows are closed and recorded and
the status is `Mostly Pass`. -/
theorem claim5_mostly_pass_amended :
    ∀ (w : TestWorld) (sp ep an : String) (ws : List WinInfo),
      w.shortcutExists = true → w.launchExn = none →
      (∀ t, w.uacAt t = false) → (∀ t, w.newWindowsAt t = ws) →
      ws.find? (matchWinExe (aliasLookup (lowerStr (basename ep)))) = none →
      ws.find? (matchWinTitle an) = none →
      ws ≠ [] →
      (orig_launch_and_test w sp ep an).status = "Mostly Pass" ∧
      (orig_launch_and_test w sp ep an).remarks =
        "Expected application window not found, but other windows were handled." ∧
      (orig_launch_and_test w sp ep an).closedWindows =
        (ws.filter (fun v => v.accessible && v.closable)).map WinInfo.title := by
  intro w sp ep an ws h1 h2 hu hwin hm1 hm2 hne
  have hdet := origDetect_timeout w (aliasLookup (lowerStr (basename ep))) an ws
    hu hwin hm1 hm2
  have hempty : ws.isEmpty = false := by
    cases ws with
    | nil => exact absurd rfl hne
    | cons a l => rfl
  refine ⟨?_, ?_, ?_⟩ <;>
    simp [orig_launch_and_test, orig_body, h1, h2, hdet, hempty]

/-- Claim C5 witness at concrete inputs. -/
theorem claim5_witness :
    (orig_launch_and_test world5 "App.lnk" "C:\\x\\app.exe" "App").status =
      "Mostly Pass" ∧
    (orig_launch_and_test world5 "App.lnk" "C:\\x\\app.exe" "App").closedWindows =
      ["Other"] := by
  have h := claim5_mostly_pass_amended world5 "App.lnk" "C:\\x\\app.exe" "App"
    [winOther] rfl rfl (fun _ => rfl) (fun _ => rfl) (by decide) (by decide)
    (by decide)
  exact ⟨h.1, h.2.2.trans (by decide)⟩

/-! ### Claim C6 -/

/-- Claim C6 counterexample: in the original script, `AccessDenied` on one
child is not caught (only `NoSuchProcess` is), so the whole
`kill_process_tree` call aborts with the exception and the names signalled so
far (here none, though `worker.exe` would still have been reachable) are
lost instead of returned. -/
theorem claim6_counterexample :
    kill_process_tree_orig
      (PTree.node ⟨"app.exe", true, false, false⟩
        [PTree.node ⟨"helper.exe", true, true, false⟩ [],
         PTree.node ⟨"worker.exe", true, false, false⟩ []]) true =
      Except.error "psutil.AccessDenied" := by
  rfl

/-- Claim C6 (amended): in the cleaned-up script an access-denied child is
skipped and only that child — removing a denied child from the tree leaves the
returned name list unchanged, so the call continues with the remaining
processes and still returns every name signalled. -/
theorem claim6_denied_skipped_amended :
    ∀ (ex : List String) (p d : ProcInfo) (ts1 ts2 : List PTree) (b : Bool),
      d.denied = true →
      kill_process_tree ex (PTree.node p (ts1 ++ PTree.node d [] :: ts2)) b =
        kill_process_tree ex (PTree.node p (ts1 ++ ts2)) b := by
  intro ex p d ts1 ts2 b hd
  have hL : PTree.allNodesL (ts1 ++ PTree.node d [] :: ts2) =
      PTree.allNodesL ts1 ++ d :: PTree.allNodesL ts2 := by
    rw [PTree.allNodesL_append]
    simp [PTree.allNodesL, PTree.allNodes]
  have hfilter : ∀ f : ProcInfo → Bool, f d = false →
      (PTree.allNodesL ts1 ++ d :: PTree.allNodesL ts2).filter f =
        (PTree.allNodesL ts1 ++ PTree.allNodesL ts2).filter f := by
    intro f hf
    simp [List.filter_append, List.filter_cons, hf]
  have ht : termPass ex (PTree.allNodesL ts1 ++ d :: PTree.allNodesL ts2) =
      termPass ex (PTree.allNodesL ts1 ++ PTree.allNodesL ts2) := by
    unfold termPass
    rw [hfilter _ (by simp [hd])]
  have hk : killPass ex (PTree.allNodesL ts1 ++ d :: PTree.allNodesL ts2) =
      killPass ex (PTree.allNodesL ts1 ++ PTree.allNodesL ts2) := by
    unfold killPass
    rw [hfilter _ (by simp [hd])]
  simp only [kill_process_tree, PTree.info, PTree.descendants,
    PTree.allNodesL_append, hL, ht, hk]

/-- Claim C6 witness at concrete inputs: dropping the denied `helper.exe`
child does not change what the cleaned-up `kill_process_tree` returns. -/
theorem claim6_witness :
    kill_process_tree [] (PTree.node ⟨"app.exe", true, false, false⟩
        [PTree.node ⟨"helper.exe", true, true, false⟩ [],
         PTree.node ⟨"worker.exe", true, false, false⟩ []]) true =
      kill_process_tree [] (PTree.node ⟨"app.exe", true, false, false⟩
        [PTree.node ⟨"worker.exe", true, false, false⟩ []]) true :=
  claim6_denied_skipped_amended [] ⟨"app.exe", true, false, false⟩
    ⟨"helper.exe", true, true, false⟩ []
    [PTree.node ⟨"worker.exe", true, false, false⟩ []] true rfl

/-! ### Claim C7 -/

/-- World for C7: the matching window is visible only at wall-clock second 2. -/
def world7a : TestWorld :=
  { worldQuiet with newWindowsAt := fun t => if t = 2 then [winApp] else [] }

/-- Same world, but the pause flag holds the detector for 10 seconds at the
start of the first iteration. -/
def world7b : TestWorld :=
  { world7a with pauseDur := fun t => if t = 0 then 10 else 0 }

/-- Claim C7 counterexample: the loop bound is `time.time() - start_time <
max_wait_time` with `start_time` never adjusted, so wall-clock pause time is
charged against the budget.  Two runs identical except for a 10-second pause
diverge: unpaused the window is detected (`Success`), paused the budget is
spent inside the pause and the case fails after a single poll. -/
theorem claim7_counterexample :
    (launch_and_test_application cfgA world7a "App.lnk" "C:\\x\\app.exe"
      "App").status = "Success" ∧
    (launch_and_test_application cfgA world7b "App.lnk" "C:\\x\\app.exe"
      "App").status = "Failed" ∧
    (detect cfgA world7b "app.exe" "App").polls = 1 := by
  decide

/-- Claim C7 (amended): pause blocks the detector, but elapsed pause time
does count against `maxWaitSeconds` — whenever the first iteration's pause
plus one poll interval reaches the budget, the detector exits after exactly
one window inspection. -/
theorem claim7_pause_budget_amended :
    ∀ (cfg : Config) (w : TestWorld) (a an : String),
      0 < cfg.maxWaitTime →
      w.cancelledAt 0 = false →
      w.uacAt (w.pauseDur 0) = false →
      (w.newWindowsAt (w.pauseDur 0)).find? (matchWin a an) = none →
      cfg.maxWaitTime ≤ w.pauseDur 0 + cfg.pollInterval →
      detect cfg w a an = ⟨DetectOutcome.timedOut, 1⟩ := by
  intro cfg w a an h0 hc hu hw hb
  have h1 : ¬ cfg.maxWaitTime ≤ 0 := by omega
  show detectAux cfg w a an (cfg.maxWaitTime + 1) 0 0 = ⟨DetectOutcome.timedOut, 1⟩
  simp only [detectAux, h1, if_false, hc, Nat.zero_add, hu, hw]
  exact detectAux_done cfg w a an cfg.maxWaitTime (w.pauseDur 0 + cfg.pollInterval)
    1 hb

/-- Claim C7 witness at concrete inputs. -/
theorem claim7_witness :
    detect cfgA world7b "app.exe" "App" = ⟨DetectOutcome.timedOut, 1⟩ :=
  claim7_pause_budget_amended cfgA world7b "app.exe" "App" (by decide) rfl
    (by decide) (by decide) (by decide)

/-! ### Claim C8 -/

/-- Claim C8 counterexample: with the cancel flag already set before the
first case starts, the run controller breaks out of the loop — the case gets
no result at all (in particular none with status `Cancelled`). -/
theorem claim8_counterexample :
    run_tests cfgA (fun _ => worldQuiet) (fun _ => true) 0
      [("App.lnk", "C:\\x\\app.exe")] = [] := by
  decide

/-- Claim C8 (amended): if the cancel flag is set before a case starts, the
run controller stops at once — that case (and all later ones) produce no
result and no launch is attempted; a result with status `Cancelled` arises
only when the flag is first observed inside an already-launched case's
polling loop. -/
theorem claim8_cancel_amended :
    (∀ (cfg : Config) (worlds : Nat → TestWorld) (cancelAt : Nat → Bool)
        (i : Nat) (c : String × String) (rest : List (String × String)),
        cancelAt i = true →
        run_tests cfg worlds cancelAt i (c :: rest) = []) ∧
    (∀ (cfg : Config) (w : TestWorld) (sp ep an : String),
        w.shortcutExists = true → w.launchExn = none →
        0 < cfg.maxWaitTime → w.cancelledAt 0 = true →
        launch_and_test_application cfg w sp ep an =
          { initResult an (basename sp) (lowerStr (basename ep)) with
            status := "Cancelled"
            remarks := "Testing cancelled by user." }) := by
  constructor
  · intro cfg worlds cancelAt i c rest hc
    obtain ⟨sp, ep⟩ := c
    simp [run_tests, hc]
  · intro cfg w sp ep an h1 h2 h0 hcan
    have hnle : ¬ cfg.maxWaitTime ≤ 0 := by omega
    have hdet : (detect cfg w (aliasLookup (lowerStr (basename ep))) an).outcome =
        DetectOutcome.cancelledSeen := by
      simp [detect, detectAux, hnle, hcan]
    simp [launch_and_test_application, h1, h2, hdet]

/-- World for the C8 witness: cancellation is observed at the first poll of a
running case. -/
def world8 : TestWorld := { worldQuiet with cancelledAt := fun _ => true }

/-- Claim C8 witness at concrete inputs. -/
theorem claim8_witness :
    run_tests cfgA (fun _ => worldQuiet) (fun _ => true) 0
      [("App.lnk", "C:\\x\\app.exe")] = [] ∧
    launch_and_test_application cfgA world8 "App.lnk" "C:\\x\\app.exe" "App" =
      { initResult "App" (basename "App.lnk") (lowerStr (basename "C:\\x\\app.exe")) with
        status := "Cancelled"
        remarks := "Testing cancelled by user." } :=
  ⟨claim8_cancel_amended.1 cfgA (fun _ => worldQuiet) (fun _ => true) 0
      ("App.lnk", "C:\\x\\app.exe") [] rfl,
   claim8_cancel_amended.2 cfgA world8 "App.lnk" "C:\\x\\app.exe" "App" rfl rfl
      (by decide) rfl⟩

/-! ### Claim C9 -/

/-- Claim C9 (code bug): `load_files` builds both filtered lists in lockstep
from `zip`, which silently truncates to the shorter input, so the two
filtered lists always have equal length and the mismatch check is dead code —
mismatched input files load successfully as a truncated inventory instead of
failing.  Concretely, two shortcut lines against one executable line load as
a one-entry inventory. -/
theorem claim9_dead_length_check :
    load_files ["a.lnk", "b.lnk"] ["a.exe"] = some (["a.lnk"], ["a.exe"]) ∧
    ∀ (ss es : List String),
      (filterEntries ss es).1.length = (filterEntries ss es).2.length ∧
      load_files ss es = some (filterEntries ss es) := by
  have hlen : ∀ (ss es : List String),
      (filterEntries ss es).1.length = (filterEntries ss es).2.length := by
    intro ss
    induction ss with
    | nil => intro es; simp [filterEntries]
    | cons s ss ih =>
      intro es
      cases es with
      | nil => simp [filterEntries]
      | cons e es =>
        simp only [filterEntries]
        split
        · exact ih es
        · simp [ih es]
  refine ⟨by decide, fun ss es => ⟨hlen ss es, ?_⟩⟩
  simp [load_files, hlen ss es]

/-! ### Claim C10 -/

/-- Claim C10: protection is decided case-insensitively.  `load_config`
lowercases the configured names and `is_system_process` lowercases the
OS-reported name, so a process is recognised as protected exactly when its
name equals a configured name up to case; consequently neither
`kill_process_tree` nor the residual cleanup pass (`termPass` shape) ever
reports such a process, and the original script's hardcoded lowercase list
compared against `name.lower()` behaves the same way. -/
theorem claim10_case_insensitive :
    ∀ (raw : List String) (n : String),
      (is_system_process (load_config_excluded raw) n = true ↔
        ∃ e, e ∈ raw ∧ lowerStr n = lowerStr e) ∧
      (∀ (t : PTree) (b : Bool),
        (∃ e, e ∈ raw ∧ lowerStr n = lowerStr e) →
        n ∉ kill_process_tree (load_config_excluded raw) t b) ∧
      (∀ ps : List ProcInfo,
        (∃ e, e ∈ raw ∧ lowerStr n = lowerStr e) →
        n ∉ termPass (load_config_excluded raw) ps) ∧
      (∀ (t : PTree) (b : Bool) (l : List String),
        isSysOrig n = true → kill_process_tree_orig t b = Except.ok l →
        n ∉ l) := by
  intro raw n
  have hiff : is_system_process (load_config_excluded raw) n = true ↔
      ∃ e, e ∈ raw ∧ lowerStr n = lowerStr e := by
    simp only [is_system_process, load_config_excluded, List.elem_iff,
      List.mem_map]
    constructor
    · rintro ⟨e, he, heq⟩
      exact ⟨e, he, heq.symm⟩
    · rintro ⟨e, he, heq⟩
      exact ⟨e, he, heq.symm⟩
  refine ⟨hiff, ?_, ?_, ?_⟩
  · intro t b hex hmem
    have h1 := kill_process_tree_mem _ t b n hmem
    rw [hiff.mpr hex] at h1
    exact Bool.noConfusion h1
  · intro ps hex hmem
    have h1 := termPass_mem _ ps n hmem
    rw [hiff.mpr hex] at h1
    exact Bool.noConfusion h1
  · intro t b l hsys hok hmem
    have h1 := kill_process_tree_orig_mem t b l n hok hmem
    rw [hsys] at h1
    exact Bool.noConfusion h1

/-- Claim C10 witness at concrete inputs: a configured name and an
OS-reported name differing only in case. -/
theorem claim10_witness :
    is_system_process (load_config_excluded ["Svchost.EXE"]) "sVCHOST.exe" = true ∧
    "sVCHOST.exe" ∉ kill_process_tree (load_config_excluded ["Svchost.EXE"])
      (PTree.node ⟨"sVCHOST.exe", true, false, false⟩
        [PTree.node ⟨"other.exe", true, false, false⟩ []]) true :=
  ⟨(claim10_case_insensitive ["Svchost.EXE"] "sVCHOST.exe").1.mpr
      ⟨"Svchost.EXE", by decide, by decide⟩,
   (claim10_case_insensitive ["Svchost.EXE"] "sVCHOST.exe").2.1
      (PTree.node ⟨"sVCHOST.exe", true, false, false⟩
        [PTree.node ⟨"other.exe", true, false, false⟩ []]) true
      ⟨"Svchost.EXE", by decide, by decide⟩⟩

end AppTest
